import Mathlib

/-!
Verification of the pymor frequency-inference / time-bounds core.

This file gives a shallow embedding of `pymor.std_lib.dataset_helpers`
(`infer_frequency_core`) and `pymor.std_lib.time_bounds` (`time_bounds`),
plus a spec-modelled resampling safety gate, and proves or refutes the
frozen claims about them.

Numbers are modelled as exact rationals (`ℚ`): every arithmetic operation
performed by the Python code on these inputs (sums, differences, products,
divisions, medians, comparisons) is exact rational arithmetic.  The one
exception is `np.std`, which is a square root; since the code only ever
compares `std_delta < c`, and `std_delta = Real.sqrt variance ≥ 0`, we
embed that comparison as `0 < c ∧ variance < c^2`, which is equivalent.
-/

namespace Pymor

/-- `np.diff`: consecutive differences `l[i+1] - l[i]`. -/
def diffs : List ℚ → List ℚ
  | [] => []
  | [_] => []
  | a :: b :: t => (b - a) :: diffs (b :: t)

/-- Insert into a sorted list (ascending). -/
def insort (x : ℚ) : List ℚ → List ℚ
  | [] => [x]
  | y :: ys => if x ≤ y then x :: y :: ys else y :: insort x ys

/-- Numerical sort, as used by `np.median`. -/
def sortQ (l : List ℚ) : List ℚ := l.foldr insort []

/-- `np.median`: middle element of the sorted list, or the average of the two
middle elements for even length. -/
def median (l : List ℚ) : ℚ :=
  let s := sortQ l
  let n := l.length
  if n % 2 = 1 then s.getD (n / 2) 0
  else (s.getD (n / 2 - 1) 0 + s.getD (n / 2) 0) / 2

/-- Arithmetic mean (`np.mean`). -/
def meanQ (l : List ℚ) : ℚ := l.sum / l.length

/-- `np.std(l)^2`, i.e. the (population) variance: mean of squared deviations.
`np.std` itself is the square root of this. -/
def varianceQ (l : List ℚ) : ℚ := (l.map (fun d => (d - meanQ l) ^ 2)).sum / l.length

/-- The comparison `np.std(l) < c`, expressed without square roots:
since `std ≥ 0`, `std < c ↔ 0 < c ∧ std² < c²`. -/
def stdLt (l : List ℚ) (c : ℚ) : Bool := decide (0 < c ∧ varianceQ l < c ^ 2)

/-- Python `int(q)`: truncation toward zero. -/
def pyInt (q : ℚ) : ℤ := if 0 ≤ q then ⌊q⌋ else ⌈q⌉

/-- A calendar-aware date object (the cftime / datetime variant of a
timestamp).  `dayNum` is the integer day number of the date in its calendar
(`toordinal`); `year`/`month`/`day` are the raw fields, used only by the
approximate fallback formula; `hour`/`minute`/`second` give the time of day. -/
structure CfDate where
  year : ℤ
  month : ℤ
  day : ℤ
  hour : ℤ
  minute : ℤ
  second : ℤ
  dayNum : ℤ
deriving DecidableEq

/-- Time-of-day fraction `hour/24 + minute/1440 + second/86400`. -/
def CfDate.frac (t : CfDate) : ℚ := (t.hour : ℚ) / 24 + (t.minute : ℚ) / 1440 + (t.second : ℚ) / 86400

/-- The exact instant of a date on the real day line: day number plus
time-of-day fraction. -/
def CfDate.inst (t : CfDate) : ℚ := (t.dayNum : ℚ) + t.frac

/-- `(t - ref).days` for two dates of the same calendar: the floor of the
exact difference in days (Python `timedelta.days`). -/
def tdDays (t ref : CfDate) : ℤ := ⌊t.inst - ref.inst⌋

/-- Input sequence of timestamps.  The Python code dispatches on the first
element: cftime objects (`toordinal` and `calendar` present; `toordinalOk`
records whether `ref_date.toordinal()` succeeds or the approximate fallback
is used), plain datetime objects (`toordinal`, no `calendar`), numeric
timestamps (converted through `pd.Timestamp(...).to_julian_date()`, here
days since the Unix epoch), or a sequence whose conversion raises
(`AttributeError`/`TypeError`/`ValueError` with message `msg`). -/
inductive TimesInput where
  | cft (toordinalOk : Bool) (l : List CfDate)
  | std (l : List CfDate)
  | numeric (l : List ℚ)
  | invalid (n : ℕ) (msg : String)
deriving DecidableEq

/-- `len(times)`. -/
def TimesInput.tlen : TimesInput → ℕ
  | .cft _ l => l.length
  | .std l => l.length
  | .numeric l => l.length
  | .invalid n _ => n

/-- Ordinal of a cftime object relative to the first element `ref`:
`(t - ref).days + t.hour/24 + t.minute/1440 + t.second/86400 + ref.toordinal()`. -/
def cftOrdinal (ref t : CfDate) : ℚ := (tdDays t ref : ℚ) + t.frac + (ref.dayNum : ℚ)

/-- The approximate fallback ordinal used when `ref_date.toordinal()` fails:
`year*365.25 + month*30.4375 + day + fractional_time`. -/
def approxOrdinal (t : CfDate) : ℚ :=
  (t.year : ℚ) * 365.25 + (t.month : ℚ) * 30.4375 + (t.day : ℚ) + t.frac

/-- Julian date of a numeric timestamp given as days since the Unix epoch
(`pd.Timestamp(t).to_julian_date()`; 1970-01-01 00:00 is JD 2440587.5). -/
def julian (v : ℚ) : ℚ := v + 2440587.5

/-- The Calendar Ordinal Converter: the `ordinals = ...` block of
`infer_frequency_core`.  Returns the ordinal array, or the caught exception
message for an invalid input. -/
def ordinalsOf : TimesInput → Except String (List ℚ)
  | .cft true l =>
      match l with
      | [] => .ok []
      | ref :: _ => .ok (l.map (cftOrdinal ref))
  | .cft false l => .ok (l.map approxOrdinal)
  | .std l => .ok (l.map CfDate.inst)
  | .numeric l => .ok (l.map julian)
  | .invalid _ msg => .error msg

/-- The result record of frequency inference (namedtuple `FrequencyResult`). -/
structure FrequencyResult where
  frequency : Option String
  delta_days : Option ℚ
  step : Option ℕ
  is_exact : Bool
  status : String
deriving DecidableEq

/-- Mean year length of a named calendar (the `year_days` dict lookup,
defaulting to 365.25). -/
def yearDays (calendar : String) : ℚ :=
  if calendar = "standard" then 365.25
  else if calendar = "gregorian" then 365.25
  else if calendar = "noleap" then 365.0
  else if calendar = "360_day" then 360.0
  else 365.25

/-- The `base_freqs` dict, in insertion order. -/
def baseFreqs (yd : ℚ) : List (String × ℚ) :=
  [("H", 1 / 24), ("D", 1), ("W", 7), ("M", yd / 12), ("Q", yd / 4), ("A", yd), ("10A", yd * 10)]

/-- `range(1, 13)`. -/
def stepRange : List ℕ := List.range' 1 12

/-- One pass of the matching double loop: for each `(freq, base_days)` in
order and each `step` in `1..12`, return the first `(freq, base_days, step)`
with `|median_delta - base_days*step| <= tol * base_days*step`. -/
def matchOnce (md tol : ℚ) (bf : List (String × ℚ)) : Option (String × ℚ × ℕ) :=
  bf.findSome? fun p =>
    stepRange.findSome? fun (step : ℕ) =>
      if |md - p.2 * (step : ℚ)| ≤ tol * (p.2 * (step : ℚ)) then some (p.1, p.2, step)
      else none

/-- The full matcher: a strict pass with `tol`, then a relaxed pass with
tolerance `0.5`. -/
def matchTwoPhase (md tol : ℚ) (bf : List (String × ℚ)) : Option (String × ℚ × ℕ) :=
  match matchOnce md tol bf with
  | some r => some r
  | none => matchOnce md (1 / 2) bf

/-- The reference algorithm's candidate triples, written from the spec's
words (§4.2): unit order H, D, W, M, Q, A, 10A with base day-lengths
H=1/24, D=1, W=7, M=year_days/12, Q=year_days/4, A=year_days,
10A=year_days*10, and steps 1..12 inside each unit. -/
def specCandidates (yd : ℚ) : List (String × ℚ × ℕ) :=
  ([("H", 1 / 24), ("D", 1), ("W", 7), ("M", yd / 12), ("Q", yd / 4), ("A", yd),
    ("10A", yd * 10)] : List (String × ℚ)).flatMap
    fun p => (List.range' 1 12).map fun s => (p.1, p.2, s)

/-- The reference algorithm's single search pass, from the spec's words:
the first candidate with `|median_delta - base*step| <= tol * base*step`. -/
def specSearch (md tol yd : ℚ) : Option (String × ℚ × ℕ) :=
  (specCandidates yd).find?
    fun c => decide (|md - c.2.1 * (c.2.2 : ℚ)| ≤ tol * (c.2.1 * (c.2.2 : ℚ)))

/-- The reference matcher, from the spec's words: search under `tol`, and if
nothing matched retry once with the relaxed tolerance 0.5. -/
def specMatcher (md tol yd : ℚ) : Option (String × ℚ × ℕ) :=
  (specSearch md tol yd).orElse fun _ => specSearch md (1 / 2) yd

/-- The classification tail of `infer_frequency_core`: the non-strict
`(is_exact, status)` pair, then, in strict mode, the per-element deviation
check followed by the step-count check (each overwriting `status`/`is_exact`). -/
def classify (exact0 : Bool) (deltas : List ℚ) (md tol expected actual : ℚ)
    (strict : Bool) : Bool × String :=
  let status0 := if exact0 then "valid" else "irregular"
  if strict then
    let p := if ¬ (deltas.all fun d => decide (|d - md| ≤ tol * md)) then (false, "irregular")
             else (exact0, status0)
    if 1 ≤ |expected - actual| then (false, "missing_steps") else p
  else (exact0, status0)

/-- `f"{matched_step}{matched_freq}" if matched_step > 1 else matched_freq`. -/
def freqStr (f : String) (step : ℕ) : String :=
  if step > 1 then toString step ++ f else f

/-- Shallow embedding of `infer_frequency_core` (metadata mode: the returned
`FrequencyResult`; the scalar mode is the `frequency` field, see
`inferFrequencyScalar`). -/
def inferFrequencyCore (times : TimesInput) (tol : ℚ) (strict : Bool)
    (calendar : String) : FrequencyResult :=
  if times.tlen < 2 then ⟨none, none, none, false, "too_short"⟩
  else
    match ordinalsOf times with
    | .error e => ⟨none, none, none, false, "invalid_input: " ++ e⟩
    | .ok ords =>
      let deltas := diffs ords
      let md := median deltas
      let bf := baseFreqs (yearDays calendar)
      match matchTwoPhase md tol bf with
      | none => ⟨none, some md, none, false, "no_match"⟩
      | some (f, base, step) =>
        let exact0 := stdLt deltas (tol * (base * (step : ℚ)))
        let expected := (ords.getLast?.getD 0 - ords.headD 0) / (base * (step : ℚ))
        let actual : ℚ := (times.tlen : ℚ) - 1
        let es := classify exact0 deltas md tol expected actual strict
        ⟨some (freqStr f step), some md, some step, es.1, es.2⟩

/-- The scalar calling convention (`return_metadata=False`): at every return
site of the Python function the scalar value is exactly the `frequency`
field of the metadata result (`None` on the failure paths, `freq_str` on the
matched path). -/
def inferFrequencyScalar (times : TimesInput) (tol : ℚ) (strict : Bool)
    (calendar : String) : Option String :=
  (inferFrequencyCore times tol strict calendar).frequency

/-- The 360-day-calendar date with absolute month number `k` (12 per year)
and day-of-month `d`, at midnight: its `toordinal` day number is
`360*year + 30*(month-1) + (day-1) = 30*k + (d-1)`. -/
def date360 (k d : ℤ) : CfDate :=
  ⟨k / 12, k % 12 + 1, d, 0, 0, 0, 30 * k + (d - 1)⟩

/-- A strictly increasing monthly sequence on the 360-day calendar: `n`
consecutive months starting at month `k0`, all on day `d` of the month. -/
def monthlySeq (k0 d : ℤ) (n : ℕ) : List CfDate :=
  (List.range n).map fun (i : ℕ) => date360 (k0 + (i : ℤ)) d

/-! ## Time bounds (`pymor.std_lib.time_bounds`) -/

/-- One coordinate of an xarray object, as observed by `get_time_label`:
its name, whether `is_datetime_type` holds of it, whether `coord.dims` is
nonempty, and whether `name in coord.dims`. -/
structure Coord where
  name : String
  isDatetime : Bool
  hasDims : Bool
  nameInDims : Bool
deriving DecidableEq

/-- One step of `get_time_label`'s loop: skip non-datetime or dimensionless
coordinates, `appendleft` dimension coordinates, `append` the others. -/
def timeLabelStep (dq : List String) (c : Coord) : List String :=
  if c.isDatetime && c.hasDims then
    if c.nameInDims then c.name :: dq else dq ++ [c.name]
  else dq

/-- `get_time_label`: walk the coordinates in order, pushing datetime
dimension-coordinates on the front of a deque and other datetime
coordinates on the back, then pop the front (with `None` appended last as
the fallback). -/
def getTimeLabel (coords : List Coord) : Option String :=
  (coords.foldl timeLabelStep []).head?

/-- The slice of an `xr.Dataset` that `time_bounds` observes and updates.
`isDataset` is the `isinstance(ds, xr.Dataset)` test; `timeValues` holds the
values of the time coordinate in integer seconds since the Unix epoch
(`astype("datetime64[s]")`); `timeBoundsAttr` is the `"bounds"` attribute of
the time variable; `boundsData` the data of the generated bounds variable. -/
structure Dataset where
  isDataset : Bool
  coords : List Coord
  varNames : List String
  timeValues : List ℤ
  timeBoundsAttr : Option String
  attrTimeMethod : Option String
  boundsData : Option (List (ℤ × ℤ))
deriving DecidableEq

/-- The slice of a `Rule` object that `time_bounds` reads. -/
structure Rule where
  approx_interval : Option ℚ
  time_method : Option String
deriving DecidableEq

/-- `getattr(rule, "time_method", None) or ds.attrs.get("time_method", "mean")`
(Python `or`: an absent or empty rule attribute falls back to the dataset
attribute, defaulting to `"mean"`). -/
def resolveTimeMethod (rule : Rule) (ds : Dataset) : String :=
  match rule.time_method with
  | some s => if s = "" then ds.attrTimeMethod.getD "mean" else s
  | none => ds.attrTimeMethod.getD "mean"

/-- Gregorian civil date from days since 1970-01-01 (the calendar arithmetic
`pd.Timestamp` performs), returning `(year, month, day)`. -/
def civilFromDays (z0 : ℤ) : ℤ × ℤ × ℤ :=
  let z := z0 + 719468
  let era := (if 0 ≤ z then z else z - 146096) / 146097
  let doe := z - era * 146097
  let yoe := (doe - doe / 1460 + doe / 36524 - doe / 146096) / 365
  let y := yoe + era * 400
  let doy := doe - (365 * yoe + yoe / 4 - yoe / 100)
  let mp := (5 * doy + 2) / 153
  let d := doy - (153 * mp + 2) / 5 + 1
  let m := mp + (if mp < 10 then 3 else -9)
  (y + (if m ≤ 2 then 1 else 0), m, d)

/-- Days since 1970-01-01 of a Gregorian civil date. -/
def daysFromCivil (y0 m d : ℤ) : ℤ :=
  let y := y0 - (if m ≤ 2 then 1 else 0)
  let era := (if 0 ≤ y then y else y - 399) / 400
  let yoe := y - era * 400
  let mp := m + (if 2 < m then -3 else 9)
  let doy := (153 * mp + 2) / 5 + d - 1
  let doe := yoe * 365 + yoe / 4 - yoe / 100 + doy
  era * 146097 + doe - 719468

/-- Seconds-since-epoch of the start of the calendar month containing `t`
(`ts.replace(day=1, hour=0, minute=0, second=0, microsecond=0)`). -/
def monthStartSec (t : ℤ) : ℤ :=
  let c := civilFromDays (t / 86400)
  daysFromCivil c.1 c.2.1 1 * 86400

/-- Seconds-since-epoch of the start of the month after the one containing
`t` (year rolls over at December). -/
def nextMonthStartSec (t : ℤ) : ℤ :=
  let c := civilFromDays (t / 86400)
  if c.2.1 = 12 then daysFromCivil (c.1 + 1) 1 1 * 86400
  else daysFromCivil c.1 (c.2.1 + 1) 1 * 86400

/-- `_create_monthly_bounds`: per timestep, `(month_start, next_month_start)`. -/
def createMonthlyBounds (tv : List ℤ) : List (ℤ × ℤ) :=
  tv.map fun t => (monthStartSec t, nextMonthStartSec t)

/-- `data_freq_days`: the median of the consecutive time deltas in seconds,
divided by `24*3600`. -/
def dataFreqDays (tv : List ℤ) : ℚ :=
  median (diffs (tv.map fun t => (t : ℚ))) / 86400

/-- The interval-based consecutive bounds: extend the series by one point at
`time_values[-1] + np.timedelta64(int(data_freq_days), "D")` and pair
consecutive points. -/
def intervalConsecBounds (tv : List ℤ) (dfd : ℚ) : List (ℤ × ℤ) :=
  let ext := tv ++ [tv.getLast?.getD 0 + 86400 * pyInt dfd]
  ext.zip ext.tail

/-- The default consecutive bounds: extend the series by one point at
`time_values[-1] + np.median(np.diff(time_values))` (the raw median delta,
truncated to whole seconds by the timedelta64 cast) and pair consecutive
points. -/
def defaultConsecBounds (tv : List ℤ) : List (ℤ × ℤ) :=
  let td := pyInt (median (diffs (tv.map fun t => (t : ℚ))))
  let ext := tv ++ [tv.getLast?.getD 0 + td]
  ext.zip ext.tail

/-- `ds.assign_coords({time_bounds_label: bounds})` followed by setting the
time variable's `"bounds"` attribute when absent: the new bounds coordinate
(datetime-typed, dims `(time_label, "bnds")`, so its name is in its dims only
if it equals one of them) is appended to the coordinate order, its name to
the variable names. -/
def addBounds (ds : Dataset) (tl tbl : String) (bd : List (ℤ × ℤ)) : Dataset :=
  { ds with
    coords := ds.coords ++ [⟨tbl, true, true, decide (tbl = tl ∨ tbl = "bnds")⟩]
    varNames := ds.varNames ++ [tbl]
    timeBoundsAttr := match ds.timeBoundsAttr with
      | none => some tbl
      | some s => some s
    boundsData := some bd }

/-- Validation of the time method: unknown values default to `"mean"` (with
a warning in the Python code). -/
def validTimeMethod (tm0 : String) : String :=
  if tm0 = "mean" ∨ tm0 = "instantaneous" ∨ tm0 = "climatology" then tm0 else "mean"

/-- Shallow embedding of `time_bounds(ds, rule)`.  `ValueError`s become
`Except.error` with the raised message.  The final `else` branch is the
`mean` method (the validated method is one of the three values and the
other two have been dispatched). -/
def timeBounds (ds : Dataset) (rule : Rule) : Except String Dataset :=
  if ds.isDataset = false then .error "The input is not a dataset."
  else
    match getTimeLabel ds.coords with
    | none => .error "The dataset does not contain a valid time coordinate."
    | some tl =>
      if tl ++ "_bnds" ∈ ds.varNames then .ok ds
      else if validTimeMethod (resolveTimeMethod rule ds) = "climatology" then .ok ds
      else if ds.timeValues.length < 1 then
        .error "Cannot create time bounds: no time points found"
      else if validTimeMethod (resolveTimeMethod rule ds) = "instantaneous" then
        .ok (addBounds ds tl (tl ++ "_bnds") (ds.timeValues.zip ds.timeValues))
      else if ds.timeValues.length < 2 then
        .error "Cannot create mean time bounds: need at least 2 time points"
      else
        match rule.approx_interval with
        | some ai =>
          if |dataFreqDays ds.timeValues - ai| < 1 / 10 then
            if 28 ≤ ai ∧ ai ≤ 32 then
              .ok (addBounds ds tl (tl ++ "_bnds") (createMonthlyBounds ds.timeValues))
            else
              .ok (addBounds ds tl (tl ++ "_bnds")
                (intervalConsecBounds ds.timeValues (dataFreqDays ds.timeValues)))
          else .ok (addBounds ds tl (tl ++ "_bnds") (defaultConsecBounds ds.timeValues))
        | none => .ok (addBounds ds tl (tl ++ "_bnds") (defaultConsecBounds ds.timeValues))

/-- Projection used to state facts about the generated bounds data. -/
def boundsOf (r : Except String Dataset) : Option (List (ℤ × ℤ)) :=
  match r with
  | .ok d => d.boundsData
  | .error _ => none

/-! ## Resampling safety gate (modelled from the spec)

The gate itself (`is_resolution_fine_enough` / `resample_safe` in
`pymor.core.infer_freq`) is not part of the sources; only its tests and the
spec describe it.  The definitions below are therefore modelled from the
spec, §4.4 and §6. -/

/-- The result record of a resolution check (spec §3 `ResolutionCheckResult`). -/
structure ResolutionCheckResult where
  is_valid_for_resampling : Bool
  comparison_status : String
  source_delta_days : Option ℚ
  target_interval_days : ℚ
deriving DecidableEq

/-- Modelled from the spec: the comparison verdict of the gate.  Within
tolerance of the target is `equal`, strictly smaller is `finer`, larger is
`coarser`; a `missing_steps` source status under strict mode forces the
verdict `missing_steps`. -/
def compStatus (d targetDays tol : ℚ) (strict : Bool) (srcStatus : String) : String :=
  if strict ∧ srcStatus = "missing_steps" then "missing_steps"
  else if |d - targetDays| ≤ tol * targetDays then "equal"
  else if d < targetDays then "finer"
  else "coarser"

/-- Modelled from the spec: the comparison step of the gate, applied to an
already-inferred source `FrequencyResult`. -/
def gateCompare (src : FrequencyResult) (targetDays tol : ℚ) (strict : Bool) :
    ResolutionCheckResult :=
  match src.delta_days with
  | none => ⟨false, src.status, none, targetDays⟩
  | some d =>
    ⟨decide (compStatus d targetDays tol strict src.status = "finer" ∨
             compStatus d targetDays tol strict src.status = "equal"),
     compStatus d targetDays tol strict src.status, some d, targetDays⟩

/-- Modelled from the spec: `is_resolution_fine_enough` of
`pymor.core.infer_freq` (not in the sources).  Infers the source
`FrequencyResult`, then compares its median delta in days against the target
interval.  Resampling is permitted exactly for `finer`/`equal`.  When
inference produced no delta the source status is reported and resampling
refused. -/
def isResolutionFineEnough (times : TimesInput) (targetDays : ℚ) (tol : ℚ)
    (strict : Bool) (calendar : String) : ResolutionCheckResult :=
  gateCompare (inferFrequencyCore times tol strict calendar) targetDays tol strict

/-- Modelled from the spec: the refusal behaviour of `resample_safe` of
`pymor.core.infer_freq` (not in the sources).  When the gate's verdict does
not permit resampling it raises `InsufficientResolution`, whose message
contains the phrase "time resolution too coarse"; otherwise the check result
is handed to the external resample operation. -/
def resampleSafe (times : TimesInput) (targetDays : ℚ) (tol : ℚ)
    (strict : Bool) (calendar : String) : Except String ResolutionCheckResult :=
  let chk := isResolutionFineEnough times targetDays tol strict calendar
  if chk.is_valid_for_resampling then .ok chk
  else .error "InsufficientResolution: time resolution too coarse for resampling"

/-! ## Helper lemmas -/

lemma invalid_status_ne_valid (e : String) : "invalid_input: " ++ e ≠ "valid" := by
  intro h
  have h1 := congrArg String.length h
  rw [String.length_append] at h1
  have h2 : ("invalid_input: " : String).length = 15 := rfl
  have h3 : ("valid" : String).length = 5 := rfl
  omega

/-- The classification tail keeps `is_exact` and `status` consistent. -/
lemma classify_fst_iff_snd (e : Bool) (deltas : List ℚ) (md tol expected actual : ℚ)
    (strict : Bool) :
    ((classify e deltas md tol expected actual strict).1 = true ↔
     (classify e deltas md tol expected actual strict).2 = "valid") := by
  unfold classify
  cases strict <;> cases e <;> simp <;> split_ifs <;> simp_all

/-- Evaluation of `infer_frequency_core` on the too-short branch. -/
lemma inferCore_too_short (times : TimesInput) (tol : ℚ) (strict : Bool) (calendar : String)
    (h : times.tlen < 2) :
    inferFrequencyCore times tol strict calendar = ⟨none, none, none, false, "too_short"⟩ := by
  unfold inferFrequencyCore
  rw [if_pos h]

/-- Evaluation of `infer_frequency_core` on the invalid-input branch. -/
lemma inferCore_invalid (times : TimesInput) (tol : ℚ) (strict : Bool) (calendar : String)
    (e : String) (h2 : ¬ times.tlen < 2) (ho : ordinalsOf times = .error e) :
    inferFrequencyCore times tol strict calendar =
      ⟨none, none, none, false, "invalid_input: " ++ e⟩ := by
  unfold inferFrequencyCore
  simp only [if_neg h2, ho]

/-- In strict mode, the step-count check overwrites whatever the earlier
checks produced. -/
lemma classify_missing_steps (e : Bool) (deltas : List ℚ) (md tol expected actual : ℚ)
    (h : 1 ≤ |expected - actual|) :
    classify e deltas md tol expected actual true = (false, "missing_steps") := by
  unfold classify
  simp [h]

/-- Evaluation of `infer_frequency_core` on the matched branch. -/
lemma inferCore_matched (times : TimesInput) (tol : ℚ) (strict : Bool) (calendar : String)
    (ords : List ℚ) (f : String) (base : ℚ) (step : ℕ)
    (h2 : ¬ times.tlen < 2) (ho : ordinalsOf times = .ok ords)
    (hm : matchTwoPhase (median (diffs ords)) tol (baseFreqs (yearDays calendar)) =
      some (f, base, step)) :
    inferFrequencyCore times tol strict calendar =
      ⟨some (freqStr f step), some (median (diffs ords)), some step,
        (classify (stdLt (diffs ords) (tol * (base * (step : ℚ)))) (diffs ords)
          (median (diffs ords)) tol
          ((ords.getLast?.getD 0 - ords.headD 0) / (base * (step : ℚ)))
          ((times.tlen : ℚ) - 1) strict).1,
        (classify (stdLt (diffs ords) (tol * (base * (step : ℚ)))) (diffs ords)
          (median (diffs ords)) tol
          ((ords.getLast?.getD 0 - ords.headD 0) / (base * (step : ℚ)))
          ((times.tlen : ℚ) - 1) strict).2⟩ := by
  unfold inferFrequencyCore
  simp only [if_neg h2, ho, hm]

/-- Evaluation of `infer_frequency_core` on the no-match branch. -/
lemma inferCore_no_match (times : TimesInput) (tol : ℚ) (strict : Bool) (calendar : String)
    (ords : List ℚ)
    (h2 : ¬ times.tlen < 2) (ho : ordinalsOf times = .ok ords)
    (hm : matchTwoPhase (median (diffs ords)) tol (baseFreqs (yearDays calendar)) = none) :
    inferFrequencyCore times tol strict calendar =
      ⟨none, some (median (diffs ords)), none, false, "no_match"⟩ := by
  unfold inferFrequencyCore
  simp only [if_neg h2, ho, hm]

lemma inner_pass_eq_find? (md tol : ℚ) (p : String × ℚ) (steps : List ℕ) :
    (steps.findSome? fun (step : ℕ) =>
      if |md - p.2 * (step : ℚ)| ≤ tol * (p.2 * (step : ℚ)) then some (p.1, p.2, step)
      else none) =
    (steps.map fun s => (p.1, p.2, s)).find?
      (fun c => decide (|md - c.2.1 * (c.2.2 : ℚ)| ≤ tol * (c.2.1 * (c.2.2 : ℚ)))) := by
  induction steps with
  | nil => rfl
  | cons a t ih =>
    rw [List.findSome?_cons, List.map_cons, List.find?_cons]
    by_cases h : |md - p.2 * (a : ℚ)| ≤ tol * (p.2 * (a : ℚ)) <;> simp [h, ih]

lemma matchOnce_eq_find? (md tol : ℚ) (bf : List (String × ℚ)) :
    matchOnce md tol bf =
    (bf.flatMap fun p => stepRange.map fun s => (p.1, p.2, s)).find?
      (fun c => decide (|md - c.2.1 * (c.2.2 : ℚ)| ≤ tol * (c.2.1 * (c.2.2 : ℚ)))) := by
  induction bf with
  | nil => rfl
  | cons p t ih =>
    show (List.findSome? _ (p :: t)) = _
    rw [List.findSome?_cons, List.flatMap_cons, List.find?_append, ← ih,
      inner_pass_eq_find? md tol p stepRange]
    cases ((stepRange.map fun s => (p.1, p.2, s)).find?
        (fun c => decide (|md - c.2.1 * (c.2.2 : ℚ)| ≤ tol * (c.2.1 * (c.2.2 : ℚ))))) with
    | none => rfl
    | some r => rfl

lemma matchOnce_eq_specSearch (md tol yd : ℚ) :
    matchOnce md tol (baseFreqs yd) = specSearch md tol yd :=
  matchOnce_eq_find? md tol (baseFreqs yd)

lemma matchTwoPhase_eq_specMatcher (md tol yd : ℚ) :
    matchTwoPhase md tol (baseFreqs yd) = specMatcher md tol yd := by
  unfold matchTwoPhase specMatcher
  rw [matchOnce_eq_specSearch, matchOnce_eq_specSearch]
  cases specSearch md tol yd with
  | none => rfl
  | some r => rfl

lemma yearDays_360 : yearDays "360_day" = 360 := by
  simp [yearDays]
  norm_num

lemma yearDays_standard : yearDays "standard" = 365.25 := by
  simp [yearDays]

/-! ## Claims -/

/-- Claim C1: for every input sequence and every combination of the options
`tol`, `strict` and `calendar`, the `FrequencyResult` returned by
`infer_frequency_core` (metadata mode) satisfies
`is_exact = (status == "valid")` on every code path. -/
theorem claim_C1_is_exact_iff_status_valid (times : TimesInput) (tol : ℚ) (strict : Bool)
    (calendar : String) :
    ((inferFrequencyCore times tol strict calendar).is_exact = true ↔
     (inferFrequencyCore times tol strict calendar).status = "valid") := by
  by_cases h2 : times.tlen < 2
  · rw [inferCore_too_short times tol strict calendar h2]
    simp
  · cases ho : ordinalsOf times with
    | error e =>
      rw [inferCore_invalid times tol strict calendar e h2 ho]
      simpa using invalid_status_ne_valid e
    | ok ords =>
      cases hm : matchTwoPhase (median (diffs ords)) tol (baseFreqs (yearDays calendar)) with
      | none =>
        rw [inferCore_no_match times tol strict calendar ords h2 ho hm]
        simp
      | some r =>
        obtain ⟨f, base, step⟩ := r
        rw [inferCore_matched times tol strict calendar ords f base step h2 ho hm]
        exact classify_fst_iff_snd ..

/-- Claim C7: for every input sequence with fewer than 2 timestamps,
inference returns the `too_short` result (none frequency, none delta, none
step) and the scalar calling convention returns none; no exception path is
involved (the guard precedes conversion and matching). -/
theorem claim_C7_too_short (times : TimesInput) (tol : ℚ) (strict : Bool) (calendar : String)
    (h : times.tlen < 2) :
    inferFrequencyCore times tol strict calendar = ⟨none, none, none, false, "too_short"⟩ ∧
    inferFrequencyScalar times tol strict calendar = none := by
  have hc : inferFrequencyCore times tol strict calendar =
      ⟨none, none, none, false, "too_short"⟩ := by
    unfold inferFrequencyCore
    rw [if_pos h]
  exact ⟨hc, by unfold inferFrequencyScalar; rw [hc]⟩

/-- Witness for C7: a single 360-day timestamp. -/
theorem claim_C7_witness :
    inferFrequencyCore (.cft true [⟨2000, 1, 1, 0, 0, 0, 720000⟩]) (1/20) false "360_day" =
      ⟨none, none, none, false, "too_short"⟩ ∧
    inferFrequencyScalar (.cft true [⟨2000, 1, 1, 0, 0, 0, 720000⟩]) (1/20) false "360_day" =
      none :=
  claim_C7_too_short _ _ _ _ (by decide)

/-- Claim C4: the frequency matcher equals the reference algorithm —
candidates in the fixed order H, D, W, M, Q, A, 10A with steps 1..12 inside
each unit, test `|median_delta - base*step| <= tol*base*step`, first match
wins; on failure one retry with relaxed tolerance 0.5; if that also fails,
the inference result is a none frequency with status `no_match`. -/
theorem claim_C4_matcher_equals_reference :
    (∀ md tol yd, matchTwoPhase md tol (baseFreqs yd) = specMatcher md tol yd) ∧
    (∀ times tol strict calendar ords, ¬ times.tlen < 2 →
      ordinalsOf times = .ok ords →
      specMatcher (median (diffs ords)) tol (yearDays calendar) = none →
      inferFrequencyCore times tol strict calendar =
        ⟨none, some (median (diffs ords)), none, false, "no_match"⟩) := by
  constructor
  · exact matchTwoPhase_eq_specMatcher
  · intro times tol strict calendar ords h2 ho hm
    exact inferCore_no_match times tol strict calendar ords h2 ho
      ((matchTwoPhase_eq_specMatcher (median (diffs ords)) tol (yearDays calendar)).trans hm)

set_option maxHeartbeats 1000000 in
/-- Witness for C4: two coincident numeric timestamps give a zero median
delta, which no candidate matches even under the relaxed tolerance, so the
result is `no_match`. -/
theorem claim_C4_witness :
    inferFrequencyCore (.numeric [0, 0]) (1/20) false "standard" =
      ⟨none, some (median (diffs [julian 0, julian 0])), none, false, "no_match"⟩ :=
  claim_C4_matcher_equals_reference.2 (.numeric [0, 0]) (1/20) false "standard"
    [julian 0, julian 0] (by decide) rfl
    (by norm_num [specMatcher, specSearch, specCandidates, julian, diffs, median, sortQ,
      insort, yearDays_standard, List.range', abs_eq_max_neg, max_def])

/-- Claim C5: with `strict=true` and a matched frequency, the step-count
check `|expected_steps - actual_steps| >= 1` forces
`status = "missing_steps"` and `is_exact = false`, overriding an
`"irregular"` verdict from the per-element deviation check when both fire
(the conclusion holds whatever the per-element check produced). -/
theorem claim_C5_missing_steps_overrides (times : TimesInput) (tol : ℚ) (calendar : String)
    (ords : List ℚ) (f : String) (base : ℚ) (step : ℕ)
    (h2 : ¬ times.tlen < 2) (ho : ordinalsOf times = .ok ords)
    (hm : matchTwoPhase (median (diffs ords)) tol (baseFreqs (yearDays calendar)) =
      some (f, base, step))
    (hgap : 1 ≤ |(ords.getLast?.getD 0 - ords.headD 0) / (base * (step : ℚ)) -
      ((times.tlen : ℚ) - 1)|) :
    inferFrequencyCore times tol true calendar =
      ⟨some (freqStr f step), some (median (diffs ords)), some step, false,
        "missing_steps"⟩ := by
  rw [inferCore_matched times tol true calendar ords f base step h2 ho hm,
    classify_missing_steps _ _ _ _ _ _ hgap]

set_option maxHeartbeats 1000000 in
/-- Witness for C5: the daily 360-day sequence with days 1, 2, 3, 7, 8 under
`strict=true` yields frequency "D", step 1, `is_exact=false`,
status "missing_steps". -/
theorem claim_C5_witness :
    inferFrequencyCore (.cft true [⟨2000, 1, 1, 0, 0, 0, 720000⟩,
      ⟨2000, 1, 2, 0, 0, 0, 720001⟩, ⟨2000, 1, 3, 0, 0, 0, 720002⟩,
      ⟨2000, 1, 7, 0, 0, 0, 720006⟩, ⟨2000, 1, 8, 0, 0, 0, 720007⟩])
      (1/20) true "360_day" =
      ⟨some "D", some 1, some 1, false, "missing_steps"⟩ := by
  have h := claim_C5_missing_steps_overrides (.cft true [⟨2000, 1, 1, 0, 0, 0, 720000⟩,
      ⟨2000, 1, 2, 0, 0, 0, 720001⟩, ⟨2000, 1, 3, 0, 0, 0, 720002⟩,
      ⟨2000, 1, 7, 0, 0, 0, 720006⟩, ⟨2000, 1, 8, 0, 0, 0, 720007⟩])
    (1/20) "360_day" [720000, 720001, 720002, 720006, 720007] "D" 1 1
    (by decide)
    (by norm_num [ordinalsOf, cftOrdinal, tdDays, CfDate.inst, CfDate.frac])
    (by norm_num [median, diffs, sortQ, insort, matchTwoPhase, matchOnce, stepRange,
      List.range', yearDays_360, baseFreqs, List.findSome?, abs_eq_max_neg, max_def])
    (by norm_num [abs_eq_max_neg, max_def, TimesInput.tlen])
  rw [h]
  norm_num [freqStr, median, diffs, sortQ, insort]

set_option maxHeartbeats 1000000 in
/-- Counterexample to C10's example: a constant 20-day spacing already
matches under the strict tolerance `tol = 0.05` — unit W with step 3
(`|20 - 21| = 1 ≤ 0.05*21`) — so the relaxed pass is never reached and the
returned frequency is "3W", not a relaxed W-step-2 match. -/
theorem claim_C10_counterexample :
    matchOnce 20 (1/20) (baseFreqs (yearDays "standard")) = some ("W", 7, 3) ∧
    inferFrequencyCore (.numeric [0, 20, 40]) (1/20) false "standard" =
      ⟨some "3W", some 20, some 3, true, "valid"⟩ := by
  constructor
  · norm_num [matchOnce, baseFreqs, yearDays_standard, stepRange, List.range',
      List.findSome?, abs_eq_max_neg, max_def]
  · norm_num [inferFrequencyCore, ordinalsOf, julian, diffs, median, sortQ, insort,
      meanQ, varianceQ, stdLt, yearDays_standard, baseFreqs, stepRange, List.range',
      matchTwoPhase, matchOnce, classify, freqStr, TimesInput.tlen, List.findSome?,
      decide_eq_true_eq, abs_eq_max_neg, max_def]
    decide

set_option maxHeartbeats 1000000 in
/-- Claim C10 (amended): a strictly regular input whose constant spacing of
1.5 days matches no candidate under `tol = 0.05` but relaxed-matches unit D
with step 1 is returned as that relaxed match with status "valid" and
`is_exact = true`, because exactness is judged from `std_delta = 0` against
the relaxed match rather than from the distance between the median delta and
the matched interval. -/
theorem claim_C10_relaxed_match_valid :
    matchOnce (3/2) (1/20) (baseFreqs (yearDays "standard")) = none ∧
    matchOnce (3/2) (1/2) (baseFreqs (yearDays "standard")) = some ("D", 1, 1) ∧
    inferFrequencyCore (.numeric [0, 3/2, 3]) (1/20) false "standard" =
      ⟨some "D", some (3/2), some 1, true, "valid"⟩ := by
  refine ⟨?_, ?_, ?_⟩
  · norm_num [matchOnce, baseFreqs, yearDays_standard, stepRange, List.range',
      List.findSome?, abs_eq_max_neg, max_def]
  · norm_num [matchOnce, baseFreqs, yearDays_standard, stepRange, List.range',
      List.findSome?, abs_eq_max_neg, max_def]
  · norm_num [inferFrequencyCore, ordinalsOf, julian, diffs, median, sortQ, insort,
      meanQ, varianceQ, stdLt, yearDays_standard, baseFreqs, stepRange, List.range',
      matchTwoPhase, matchOnce, classify, freqStr, TimesInput.tlen, List.findSome?,
      decide_eq_true_eq, abs_eq_max_neg, max_def]

set_option maxHeartbeats 1000000 in
/-- Counterexample to C2: a well-formed strictly increasing monthly sequence
(day 15 of February and March 2001, standard calendar, 2 points) is matched
as "4W" — the 28-day February delta matches week step 4 exactly, and W
precedes M in the candidate order — not as "M". -/
theorem claim_C2_counterexample :
    inferFrequencyCore (.cft true [⟨2001, 2, 15, 0, 0, 0, 730531⟩,
      ⟨2001, 3, 15, 0, 0, 0, 730559⟩]) (1/20) false "standard" =
      ⟨some "4W", some 28, some 4, true, "valid"⟩ ∧ ("4W" : String) ≠ "M" := by
  constructor
  · norm_num [inferFrequencyCore, ordinalsOf, cftOrdinal, tdDays, CfDate.inst,
      CfDate.frac, diffs, median, sortQ, insort, meanQ, varianceQ, stdLt,
      yearDays_standard, baseFreqs, stepRange, List.range', matchTwoPhase, matchOnce,
      classify, freqStr, TimesInput.tlen, List.findSome?, decide_eq_true_eq,
      abs_eq_max_neg, max_def]
    decide
  · decide

lemma diffs_cons_cons (a b : ℚ) (t : List ℚ) :
    diffs (a :: b :: t) = (b - a) :: diffs (b :: t) := rfl

/-- `np.diff` of an arithmetic progression is constant. -/
lemma diffs_arith (c : ℚ) : ∀ (n : ℕ) (C : ℚ),
    diffs ((List.range n).map fun (i : ℕ) => c * (i : ℚ) + C) = List.replicate (n - 1) c := by
  intro n
  induction n with
  | zero => intro C; rfl
  | succ m ih =>
    intro C
    rw [List.range_succ_eq_map, List.map_cons, List.map_map]
    have hmap : (List.range m).map ((fun (i : ℕ) => c * (i : ℚ) + C) ∘ Nat.succ) =
        (List.range m).map (fun (i : ℕ) => c * (i : ℚ) + (c + C)) := by
      apply List.map_congr_left
      intro a _
      simp only [Function.comp]
      push_cast
      ring
    rw [hmap]
    cases m with
    | zero => rfl
    | succ p =>
      have hexp : (List.range (p + 1)).map (fun (i : ℕ) => c * (i : ℚ) + (c + C)) =
          (c * ((0 : ℕ) : ℚ) + (c + C)) ::
            ((List.range p).map (Nat.succ)).map (fun (i : ℕ) => c * (i : ℚ) + (c + C)) := by
        rw [List.range_succ_eq_map, List.map_cons]
      rw [hexp, diffs_cons_cons, ← hexp, ih (c + C)]
      have hc : c * ((0 : ℕ) : ℚ) + (c + C) - (c * ((0 : ℕ) : ℚ) + C) = c := by
        push_cast
        ring
      rw [hc]
      rfl

lemma insort_replicate (a : ℚ) (m : ℕ) :
    insort a (List.replicate m a) = List.replicate (m + 1) a := by
  induction m with
  | zero => rfl
  | succ p ih =>
    rw [List.replicate_succ, insort, if_pos le_rfl, ← List.replicate_succ,
      ← List.replicate_succ]

lemma sortQ_replicate (a : ℚ) (m : ℕ) :
    sortQ (List.replicate m a) = List.replicate m a := by
  induction m with
  | zero => rfl
  | succ p ih =>
    rw [List.replicate_succ]
    show insort a (sortQ (List.replicate p a)) = _
    rw [ih, insort_replicate, List.replicate_succ]

lemma getD_replicate (a : ℚ) (m i : ℕ) (h : i < m) :
    (List.replicate m a).getD i 0 = a := by
  induction m generalizing i with
  | zero => omega
  | succ p ih =>
    rw [List.replicate_succ]
    cases i with
    | zero => rfl
    | succ j => exact ih j (by omega)

lemma median_replicate (a : ℚ) (m : ℕ) (h : 1 ≤ m) :
    median (List.replicate m a) = a := by
  unfold median
  dsimp only
  rw [sortQ_replicate, List.length_replicate]
  split_ifs with hodd
  · exact getD_replicate a m _ (Nat.div_lt_self (by omega) one_lt_two)
  · rw [getD_replicate a m _ (lt_of_le_of_lt (Nat.sub_le _ 1)
      (Nat.div_lt_self (by omega) one_lt_two)),
      getD_replicate a m _ (Nat.div_lt_self (by omega) one_lt_two)]
    ring

lemma meanQ_replicate (a : ℚ) (m : ℕ) (h : 1 ≤ m) :
    meanQ (List.replicate m a) = a := by
  unfold meanQ
  rw [List.sum_replicate, List.length_replicate, nsmul_eq_mul, mul_comm,
    mul_div_assoc, div_self (Nat.cast_ne_zero.mpr (by omega : m ≠ 0)), mul_one]

lemma varianceQ_replicate (a : ℚ) (m : ℕ) (h : 1 ≤ m) :
    varianceQ (List.replicate m a) = 0 := by
  unfold varianceQ
  rw [List.map_replicate, meanQ_replicate a m h]
  simp

lemma all_replicate (m : ℕ) (a : ℚ) (p : ℚ → Bool) (h : p a = true) :
    (List.replicate m a).all p = true := by
  induction m with
  | zero => rfl
  | succ k ih => simp [List.replicate_succ, h, ih]

lemma getLast_map_range (g : ℕ → ℚ) (n : ℕ) (h : 1 ≤ n) :
    ((List.range n).map g).getLast?.getD 0 = g (n - 1) := by
  obtain ⟨m, rfl⟩ : ∃ m, n = m + 1 := ⟨n - 1, by omega⟩
  rw [List.range_succ, List.map_append]
  simp

lemma headD_map_range (g : ℕ → ℚ) (n : ℕ) (h : 1 ≤ n) :
    ((List.range n).map g).headD 0 = g 0 := by
  obtain ⟨m, rfl⟩ : ∃ m, n = m + 1 := ⟨n - 1, by omega⟩
  rw [List.range_succ_eq_map]
  rfl

lemma date360_frac (k d : ℤ) : (date360 k d).frac = 0 := by
  unfold date360 CfDate.frac
  norm_num

/-- Pointwise value of the Calendar Ordinal Converter on the monthly family:
on the main cftime path the computed ordinal of month `k0 + i` is exactly
`30*i` days after the reference ordinal. -/
lemma cftOrdinal_date360 (k0 d : ℤ) (i : ℕ) :
    cftOrdinal (date360 k0 d) (date360 (k0 + (i : ℤ)) d) =
      30 * (i : ℚ) + (30 * (k0 : ℚ) + ((d : ℚ) - 1)) := by
  have h1 : (date360 (k0 + (i : ℤ)) d).inst - (date360 k0 d).inst = ((30 * i : ℤ) : ℚ) := by
    unfold CfDate.inst date360 CfDate.frac
    push_cast
    ring
  unfold cftOrdinal tdDays
  rw [h1, Int.floor_intCast, date360_frac]
  unfold date360
  push_cast
  ring

lemma ordinalsOf_cft_cons (x : CfDate) (xs : List CfDate) :
    ordinalsOf (.cft true (x :: xs)) = .ok ((x :: xs).map (cftOrdinal x)) := rfl

lemma map_map_lambda {α β γ : Type} (f : α → β) (F : β → γ) (l : List α) :
    (l.map f).map F = l.map (fun a => F (f a)) := by
  rw [List.map_map]
  rfl

lemma monthlySeq_cons (k0 d : ℤ) (m : ℕ) :
    monthlySeq k0 d (m + 1) = date360 k0 d ::
      ((List.range m).map Nat.succ).map fun (i : ℕ) => date360 (k0 + (i : ℤ)) d := by
  rw [monthlySeq, List.range_succ_eq_map, List.map_cons, Nat.cast_zero, add_zero]

/-- The Calendar Ordinal Converter on the monthly 360-day family. -/
lemma ordinalsOf_monthlySeq (k0 d : ℤ) (n : ℕ) (h : 1 ≤ n) :
    ordinalsOf (.cft true (monthlySeq k0 d n)) =
      .ok ((List.range n).map fun (i : ℕ) =>
        30 * (i : ℚ) + (30 * (k0 : ℚ) + ((d : ℚ) - 1))) := by
  obtain ⟨m, rfl⟩ : ∃ m, n = m + 1 := ⟨n - 1, by omega⟩
  rw [monthlySeq_cons, ordinalsOf_cft_cons, ← monthlySeq_cons]
  rw [monthlySeq, map_map_lambda]
  exact congrArg Except.ok (List.map_congr_left fun i _ => cftOrdinal_date360 k0 d i)

/-- In strict mode, an exact verdict survives both strict checks when every
delta sits within the per-element tolerance and expected and actual step
counts agree. -/
lemma classify_exact_eq (deltas : List ℚ) (md tol x : ℚ) (strict : Bool)
    (hall : (deltas.all fun d => decide (|d - md| ≤ tol * md)) = true) :
    classify true deltas md tol x x strict = (true, "valid") := by
  unfold classify
  cases strict
  · rfl
  · simp [hall]

set_option maxHeartbeats 1000000 in
/-- Claim C2 (amended): for every strictly increasing monthly sequence on
the 360-day calendar with a fixed valid day-of-month (at least 2 points),
frequency inference returns frequency "M", status "valid", `is_exact=true`
(in both strict modes).  On the standard/gregorian/noleap calendars the
claim fails, see the counterexample. -/
theorem claim_C2_monthly_fixed_day_360 (k0 d : ℤ) (n : ℕ) (strict : Bool)
    (hn : 2 ≤ n) (hd1 : 1 ≤ d) (hd30 : d ≤ 30) :
    inferFrequencyCore (.cft true (monthlySeq k0 d n)) (1/20) strict "360_day" =
      ⟨some "M", some 30, some 1, true, "valid"⟩ := by
  have h1n : 1 ≤ n := by omega
  have ho := ordinalsOf_monthlySeq k0 d n h1n
  have hlen : (TimesInput.cft true (monthlySeq k0 d n)).tlen = n := by
    simp [TimesInput.tlen, monthlySeq]
  have h2 : ¬ (TimesInput.cft true (monthlySeq k0 d n)).tlen < 2 := by
    rw [hlen]; omega
  have hdl : diffs ((List.range n).map fun (i : ℕ) =>
      30 * (i : ℚ) + (30 * (k0 : ℚ) + ((d : ℚ) - 1))) = List.replicate (n - 1) 30 :=
    diffs_arith 30 n _
  have hmd : median (diffs ((List.range n).map fun (i : ℕ) =>
      30 * (i : ℚ) + (30 * (k0 : ℚ) + ((d : ℚ) - 1)))) = 30 := by
    rw [hdl]
    exact median_replicate 30 (n - 1) (by omega)
  have hmatch : matchTwoPhase (median (diffs ((List.range n).map fun (i : ℕ) =>
      30 * (i : ℚ) + (30 * (k0 : ℚ) + ((d : ℚ) - 1))))) (1/20)
      (baseFreqs (yearDays "360_day")) = some ("M", 30, 1) := by
    rw [hmd, yearDays_360]
    norm_num [matchTwoPhase, matchOnce, baseFreqs, stepRange, List.range',
      List.findSome?, abs_eq_max_neg, max_def]
  rw [inferCore_matched _ _ _ _ _ _ _ _ h2 ho hmatch]
  have hE : stdLt (diffs ((List.range n).map fun (i : ℕ) =>
      30 * (i : ℚ) + (30 * (k0 : ℚ) + ((d : ℚ) - 1))))
      ((1/20) * (30 * ((1 : ℕ) : ℚ))) = true := by
    rw [stdLt, decide_eq_true_eq, hdl, varianceQ_replicate 30 (n - 1) (by omega)]
    norm_num
  have hexp : ((((List.range n).map fun (i : ℕ) =>
      30 * (i : ℚ) + (30 * (k0 : ℚ) + ((d : ℚ) - 1))).getLast?.getD 0 -
      ((List.range n).map fun (i : ℕ) =>
      30 * (i : ℚ) + (30 * (k0 : ℚ) + ((d : ℚ) - 1))).headD 0) / (30 * ((1 : ℕ) : ℚ))) =
      ((n : ℚ) - 1) := by
    rw [getLast_map_range _ n h1n, headD_map_range _ n h1n]
    push_cast [h1n]
    field_simp
  have hall : ((List.replicate (n - 1) (30 : ℚ)).all
      fun x => decide (|x - 30| ≤ 1/20 * 30)) = true := by
    apply all_replicate
    rw [decide_eq_true_eq]
    norm_num
  rw [hE, hmd, hdl, hexp, hlen,
    classify_exact_eq (List.replicate (n - 1) 30) 30 (1/20) ((n : ℚ) - 1) strict hall]
  rfl

/-- Witness for the amended C2 (this is the spec's Scenario A): four monthly
360-day timestamps, day 15 of months 1–4 of year 2000 (absolute month number
24000 is January 2000). -/
theorem claim_C2_witness :
    inferFrequencyCore (.cft true (monthlySeq 24000 15 4)) (1/20) false "360_day" =
      ⟨some "M", some 30, some 1, true, "valid"⟩ :=
  claim_C2_monthly_fixed_day_360 24000 15 4 false (by decide) (by decide) (by decide)

/-- On the main cftime path, when every timestamp's time-of-day fraction is
in `[0,1)` and the first timestamp's fraction is minimal, the computed
ordinal of `t` relative to `x` is exactly `t`'s instant. -/
lemma cftOrdinal_eq_inst (x t : CfDate) (h0 : 0 ≤ x.frac) (h1 : t.frac < 1)
    (hle : x.frac ≤ t.frac) : cftOrdinal x t = t.inst := by
  have hsplit : t.inst - x.inst = (t.frac - x.frac) + ((t.dayNum - x.dayNum : ℤ) : ℚ) := by
    unfold CfDate.inst
    push_cast
    ring
  have hfl : tdDays t x = t.dayNum - x.dayNum := by
    unfold tdDays
    rw [hsplit, Int.floor_add_int, Int.floor_eq_zero_iff.mpr
      (Set.mem_Ico.mpr ⟨by linarith, by linarith⟩), zero_add]
  unfold cftOrdinal CfDate.inst
  rw [hfl]
  push_cast
  ring

/-- Under the same conditions the whole cftime conversion returns the exact
instants. -/
lemma ordinalsOf_cft_eq_insts (x : CfDate) (xs : List CfDate)
    (hf : ∀ t ∈ x :: xs, 0 ≤ t.frac ∧ t.frac < 1)
    (hmin : ∀ t ∈ x :: xs, x.frac ≤ t.frac) :
    ordinalsOf (.cft true (x :: xs)) = .ok ((x :: xs).map CfDate.inst) := by
  rw [ordinalsOf_cft_cons]
  exact congrArg Except.ok (List.map_congr_left fun t ht =>
    cftOrdinal_eq_inst x t (hf x (List.mem_cons_self x xs)).1 (hf t ht).2 (hmin t ht))

lemma ordinalsOf_length (times : TimesInput) (ords : List ℚ)
    (h : ordinalsOf times = .ok ords) : ords.length = times.tlen := by
  cases times with
  | cft ok l =>
    cases ok with
    | false =>
      simp only [ordinalsOf, Except.ok.injEq] at h
      simp [← h, TimesInput.tlen]
    | true =>
      cases l with
      | nil =>
        simp only [ordinalsOf, Except.ok.injEq] at h
        simp [← h, TimesInput.tlen]
      | cons x xs =>
        rw [ordinalsOf_cft_cons, Except.ok.injEq] at h
        simp [← h, TimesInput.tlen]
  | std l =>
    simp only [ordinalsOf, Except.ok.injEq] at h
    simp [← h, TimesInput.tlen]
  | numeric l =>
    simp only [ordinalsOf, Except.ok.injEq] at h
    simp [← h, TimesInput.tlen]
  | invalid n msg => simp [ordinalsOf] at h

/-- Claim C3 (amended): the Calendar Ordinal Converter always returns an
array of the same length; its output is strictly increasing on strictly
increasing input for the numeric-instant variant unconditionally, for
standard datetime objects unconditionally, and for the cftime variant (with
the day-ordinal primitive available) whenever all time-of-day fractions lie
in `[0,1)` and the first timestamp's fraction is minimal — in particular for
midnight-aligned timestamps.  Without that condition monotonicity fails,
see the counterexample. -/
theorem claim_C3_converter_monotone :
    (∀ times ords, ordinalsOf times = .ok ords → ords.length = times.tlen) ∧
    (∀ (l : List ℚ) ords, ordinalsOf (.numeric l) = .ok ords →
      List.Chain' (· < ·) l → List.Chain' (· < ·) ords) ∧
    (∀ (l : List CfDate) ords, ordinalsOf (.std l) = .ok ords →
      List.Chain' (· < ·) (l.map CfDate.inst) → List.Chain' (· < ·) ords) ∧
    (∀ (x : CfDate) (xs : List CfDate) ords,
      ordinalsOf (.cft true (x :: xs)) = .ok ords →
      (∀ t ∈ x :: xs, 0 ≤ t.frac ∧ t.frac < 1) →
      (∀ t ∈ x :: xs, x.frac ≤ t.frac) →
      List.Chain' (· < ·) ((x :: xs).map CfDate.inst) → List.Chain' (· < ·) ords) := by
  refine ⟨ordinalsOf_length, ?_, ?_, ?_⟩
  · intro l ords h hc
    simp only [ordinalsOf, Except.ok.injEq] at h
    rw [← h]
    rw [List.chain'_map]
    refine hc.imp ?_
    intro a b hab
    unfold julian
    exact add_lt_add_right hab _
  · intro l ords h hc
    simp only [ordinalsOf, Except.ok.injEq] at h
    rw [← h]
    exact hc
  · intro x xs ords h hf hmin hc
    rw [ordinalsOf_cft_eq_insts x xs hf hmin, Except.ok.injEq] at h
    rw [← h]
    exact hc

set_option maxHeartbeats 1000000 in
/-- Counterexample to C3: two strictly increasing cftime timestamps — day
720000 at 23:00 and day 720001 at 00:30 — convert to ordinals
`720000 + 23/24` and `720000 + 1/48`, which are strictly decreasing: the
`(t - ref).days` floor loses the reference's time of day. -/
theorem claim_C3_counterexample :
    CfDate.inst ⟨2000, 1, 1, 23, 0, 0, 720000⟩ < CfDate.inst ⟨2000, 1, 2, 0, 30, 0, 720001⟩ ∧
    ordinalsOf (.cft true [⟨2000, 1, 1, 23, 0, 0, 720000⟩, ⟨2000, 1, 2, 0, 30, 0, 720001⟩]) =
      .ok [720000 + 23/24, 720000 + 1/48] ∧
    ¬ List.Chain' (· < ·) [(720000 : ℚ) + 23/24, 720000 + 1/48] := by
  refine ⟨?_, ?_, ?_⟩
  · norm_num [CfDate.inst, CfDate.frac]
  · norm_num [ordinalsOf, cftOrdinal, tdDays, CfDate.inst, CfDate.frac]
  · simp only [List.chain'_cons, List.chain'_singleton, and_true]
    norm_num

/-- Witness for the amended C3: two midnight 360-day timestamps one day
apart convert to strictly increasing ordinals. -/
theorem claim_C3_witness :
    List.Chain' (· < ·) [(720000 : ℚ), 720001] :=
  claim_C3_converter_monotone.2.2.2 ⟨2000, 1, 1, 0, 0, 0, 720000⟩
    [⟨2000, 1, 2, 0, 0, 0, 720001⟩] [(720000 : ℚ), 720001]
    (by norm_num [ordinalsOf, cftOrdinal, tdDays, CfDate.inst, CfDate.frac])
    (by
      intro t ht
      simp only [List.mem_cons, List.not_mem_nil, or_false] at ht
      rcases ht with rfl | rfl <;> norm_num [CfDate.frac])
    (by
      intro t ht
      simp only [List.mem_cons, List.not_mem_nil, or_false] at ht
      rcases ht with rfl | rfl <;> norm_num [CfDate.frac])
    (by
      simp only [List.map_cons, List.map_nil, List.chain'_cons, List.chain'_singleton,
        and_true]
      norm_num [CfDate.inst, CfDate.frac])

/-- A positive gate verdict implies a `finer` or `equal` comparison. -/
lemma gate_valid_comp (times : TimesInput) (targetDays tol : ℚ) (strict : Bool)
    (calendar : String)
    (h : (isResolutionFineEnough times targetDays tol strict calendar).is_valid_for_resampling
      = true) :
    (isResolutionFineEnough times targetDays tol strict calendar).comparison_status = "finer" ∨
    (isResolutionFineEnough times targetDays tol strict calendar).comparison_status = "equal" := by
  unfold isResolutionFineEnough gateCompare at h ⊢
  cases hd : (inferFrequencyCore times tol strict calendar).delta_days with
  | none =>
    simp only [hd] at h
    simp at h
  | some d =>
    simp only [hd] at h ⊢
    simp only [decide_eq_true_eq] at h
    exact h

/-- Claim C6: whenever the resampling safety gate judges the source interval
coarser than the target interval, the resample call is refused with an
`InsufficientResolution` error whose message contains the phrase
"time resolution too coarse"; the refusal is an error result, never a
silent success.  (The gate lives in `pymor.core.infer_freq`, which is not in
the sources; it is modelled from the spec.) -/
theorem claim_C6_coarser_refused (times : TimesInput) (targetDays tol : ℚ) (strict : Bool)
    (calendar : String)
    (h : (isResolutionFineEnough times targetDays tol strict calendar).comparison_status
      = "coarser") :
    ∃ msg, resampleSafe times targetDays tol strict calendar = .error msg ∧
      ("time resolution too coarse").data <:+: msg.data := by
  have hv : (isResolutionFineEnough times targetDays tol strict calendar).is_valid_for_resampling
      = false := by
    cases hb : (isResolutionFineEnough times targetDays tol strict
        calendar).is_valid_for_resampling
    · rfl
    · rcases gate_valid_comp times targetDays tol strict calendar hb with hc | hc <;>
        rw [h] at hc <;> exact absurd hc (by decide)
  refine ⟨"InsufficientResolution: time resolution too coarse for resampling", ?_, ?_⟩
  · simp only [resampleSafe, hv]
    simp
  · exact ⟨("InsufficientResolution: ").data, (" for resampling").data, by decide⟩

set_option maxHeartbeats 2000000 in
/-- Witness for C6: a quarterly 360-day series (the test's coarse-resolution
scenario) against a monthly target interval of 30.4375 days. -/
theorem claim_C6_witness :
    (isResolutionFineEnough
        (.cft true [⟨2000, 1, 1, 0, 0, 0, 720000⟩, ⟨2000, 4, 1, 0, 0, 0, 720090⟩,
          ⟨2000, 7, 1, 0, 0, 0, 720180⟩]) 30.4375 (1/20) false "360_day").comparison_status
      = "coarser" ∧
    ∃ msg, resampleSafe
        (.cft true [⟨2000, 1, 1, 0, 0, 0, 720000⟩, ⟨2000, 4, 1, 0, 0, 0, 720090⟩,
          ⟨2000, 7, 1, 0, 0, 0, 720180⟩]) 30.4375 (1/20) false "360_day" = .error msg ∧
      ("time resolution too coarse").data <:+: msg.data := by
  have hsrc : inferFrequencyCore
      (.cft true [⟨2000, 1, 1, 0, 0, 0, 720000⟩, ⟨2000, 4, 1, 0, 0, 0, 720090⟩,
        ⟨2000, 7, 1, 0, 0, 0, 720180⟩]) (1/20) false "360_day" =
      ⟨some "3M", some 90, some 3, true, "valid"⟩ := by
    norm_num [inferFrequencyCore, ordinalsOf, cftOrdinal, tdDays,
      CfDate.inst, CfDate.frac, diffs, median, sortQ, insort, meanQ, varianceQ, stdLt,
      yearDays_360, baseFreqs, stepRange, List.range', matchTwoPhase, matchOnce, classify,
      freqStr, TimesInput.tlen, List.findSome?, decide_eq_true_eq, abs_eq_max_neg, max_def]
    decide
  have h : (isResolutionFineEnough
      (.cft true [⟨2000, 1, 1, 0, 0, 0, 720000⟩, ⟨2000, 4, 1, 0, 0, 0, 720090⟩,
        ⟨2000, 7, 1, 0, 0, 0, 720180⟩]) 30.4375 (1/20) false "360_day").comparison_status
      = "coarser" := by
    rw [isResolutionFineEnough, hsrc]
    norm_num [gateCompare, compStatus, abs_eq_max_neg, max_def]
  exact ⟨h, claim_C6_coarser_refused _ _ _ _ _ h⟩

lemma bnds_name_decide_false (tl : String) :
    decide (tl ++ "_bnds" = tl ∨ tl ++ "_bnds" = "bnds") = false := by
  rw [decide_eq_false_iff_not]
  have h5 : ("_bnds" : String).length = 5 := rfl
  have h4 : ("bnds" : String).length = 4 := rfl
  rintro (h | h)
  · have := congrArg String.length h
    rw [String.length_append] at this
    omega
  · have := congrArg String.length h
    rw [String.length_append] at this
    omega

/-- Appending a coordinate whose name is not among its dims does not change
the time label (it lands at the back of the deque). -/
lemma getTimeLabel_append_nondim (coords : List Coord) (c : Coord) (tl : String)
    (h : getTimeLabel coords = some tl) (hnd : c.nameInDims = false) :
    getTimeLabel (coords ++ [c]) = some tl := by
  unfold getTimeLabel at h ⊢
  rw [List.foldl_append, List.foldl_cons, List.foldl_nil]
  rcases hdq : coords.foldl timeLabelStep [] with _ | ⟨a, rest⟩
  · rw [hdq] at h
    simp at h
  · rw [hdq] at h
    unfold timeLabelStep
    cases hb : (c.isDatetime && c.hasDims)
    · simpa using h
    · rw [hnd]
      simpa using h

/-- After bounds have been attached, a second `time_bounds` run is a no-op:
the label is unchanged and the bounds name is now among the variables. -/
lemma timeBounds_addBounds_noop (ds : Dataset) (rule : Rule) (tl : String)
    (bd : List (ℤ × ℤ)) (hds : ds.isDataset = true)
    (hlbl : getTimeLabel ds.coords = some tl) :
    timeBounds (addBounds ds tl (tl ++ "_bnds") bd) rule =
      .ok (addBounds ds tl (tl ++ "_bnds") bd) := by
  have h1 : (addBounds ds tl (tl ++ "_bnds") bd).isDataset = true := hds
  have h2 : getTimeLabel (addBounds ds tl (tl ++ "_bnds") bd).coords = some tl :=
    getTimeLabel_append_nondim ds.coords _ tl hlbl (bnds_name_decide_false tl)
  have h3 : tl ++ "_bnds" ∈ (addBounds ds tl (tl ++ "_bnds") bd).varNames :=
    List.mem_append_right _ (List.mem_singleton.mpr rfl)
  unfold timeBounds
  simp [h1, h2, h3]

/-- The existing-bounds short-circuit. -/
lemma timeBounds_existing (ds : Dataset) (rule : Rule) (tl : String)
    (hds : ds.isDataset = true) (hlbl : getTimeLabel ds.coords = some tl)
    (hmem : tl ++ "_bnds" ∈ ds.varNames) :
    timeBounds ds rule = .ok ds := by
  unfold timeBounds
  simp [hds, hlbl, hmem]

/-- The interval-based consecutive-bounds branch of the mean method. -/
lemma timeBounds_interval_branch (ds : Dataset) (rule : Rule) (tl : String) (ai : ℚ)
    (hds : ds.isDataset = true) (hlbl : getTimeLabel ds.coords = some tl)
    (hnomem : tl ++ "_bnds" ∉ ds.varNames)
    (hmean : validTimeMethod (resolveTimeMethod rule ds) = "mean")
    (hlen : 2 ≤ ds.timeValues.length)
    (hai : rule.approx_interval = some ai)
    (hclose : |dataFreqDays ds.timeValues - ai| < 1 / 10)
    (hnotm : ¬ (28 ≤ ai ∧ ai ≤ 32)) :
    timeBounds ds rule = .ok (addBounds ds tl (tl ++ "_bnds")
      (intervalConsecBounds ds.timeValues (dataFreqDays ds.timeValues))) := by
  have hnl1 : ¬ ds.timeValues.length < 1 := by omega
  have hnl2 : ¬ ds.timeValues.length < 2 := by omega
  unfold timeBounds
  rw [if_neg (by rw [hds]; simp)]
  simp only [hlbl]
  rw [if_neg hnomem,
    if_neg (by rw [hmean]; decide),
    if_neg hnl1,
    if_neg (by rw [hmean]; decide),
    if_neg hnl2]
  simp only [hai]
  rw [if_pos hclose, if_neg hnotm]

/-- Claim C8: a dataset that already contains the `{time_label}_bnds`
variable is returned unchanged, and consequently running bounds generation
twice gives the identical result the second time, on every successful path
(existing bounds, climatology pass-through, and all creation branches). -/
theorem claim_C8_bounds_idempotent :
    (∀ ds rule tl, ds.isDataset = true → getTimeLabel ds.coords = some tl →
      tl ++ "_bnds" ∈ ds.varNames → timeBounds ds rule = .ok ds) ∧
    (∀ ds rule ds', timeBounds ds rule = .ok ds' → timeBounds ds' rule = .ok ds') := by
  constructor
  · exact fun ds rule tl hds hlbl hmem => timeBounds_existing ds rule tl hds hlbl hmem
  · intro ds rule ds' h
    have hds : ds.isDataset = true := by
      cases hb : ds.isDataset
      · unfold timeBounds at h
        rw [if_pos hb] at h
        exact absurd h (by simp)
      · rfl
    unfold timeBounds at h
    rw [if_neg (by rw [hds]; simp)] at h
    rcases hlbl : getTimeLabel ds.coords with _ | tl
    · rw [hlbl] at h
      simp at h
    · simp only [hlbl] at h
      by_cases hmem : tl ++ "_bnds" ∈ ds.varNames
      · rw [if_pos hmem] at h
        obtain rfl : ds = ds' := by simpa using h
        exact timeBounds_existing ds rule tl hds hlbl hmem
      · rw [if_neg hmem] at h
        have key : ∀ bd : List (ℤ × ℤ),
            (Except.ok (addBounds ds tl (tl ++ "_bnds") bd) :
              Except String Dataset) = Except.ok ds' →
            timeBounds ds' rule = .ok ds' := by
          intro bd hbd
          obtain rfl : addBounds ds tl (tl ++ "_bnds") bd = ds' := by simpa using hbd
          exact timeBounds_addBounds_noop ds rule tl bd hds hlbl
        by_cases hclim : validTimeMethod (resolveTimeMethod rule ds) = "climatology"
        · rw [if_pos hclim] at h
          obtain rfl : ds = ds' := by simpa using h
          unfold timeBounds
          simp [hds, hlbl, hmem, hclim]
        · rw [if_neg hclim] at h
          by_cases hlen1 : ds.timeValues.length < 1
          · rw [if_pos hlen1] at h
            exact absurd h (by simp)
          · rw [if_neg hlen1] at h
            by_cases hinst : validTimeMethod (resolveTimeMethod rule ds) = "instantaneous"
            · rw [if_pos hinst] at h
              exact key _ h
            · rw [if_neg hinst] at h
              by_cases hlen2 : ds.timeValues.length < 2
              · rw [if_pos hlen2] at h
                exact absurd h (by simp)
              · rw [if_neg hlen2] at h
                rcases hai : rule.approx_interval with _ | ai
                · simp only [hai] at h
                  exact key _ h
                · simp only [hai] at h
                  by_cases hcl : |dataFreqDays ds.timeValues - ai| < 1 / 10
                  · rw [if_pos hcl] at h
                    by_cases hmon : 28 ≤ ai ∧ ai ≤ 32
                    · rw [if_pos hmon] at h
                      exact key _ h
                    · rw [if_neg hmon] at h
                      exact key _ h
                  · rw [if_neg hcl] at h
                    exact key _ h

/-- Witness for C8: a dataset that already carries `time_bnds` is returned
unchanged. -/
theorem claim_C8_witness :
    timeBounds ⟨true, [⟨"time", true, true, true⟩], ["time", "time_bnds", "temperature"],
      [0, 86400, 172800], some "time_bnds", none, none⟩ ⟨none, none⟩ =
      .ok ⟨true, [⟨"time", true, true, true⟩], ["time", "time_bnds", "temperature"],
        [0, 86400, 172800], some "time_bnds", none, none⟩ :=
  claim_C8_bounds_idempotent.1 _ ⟨none, none⟩ "time" rfl (by decide) (by decide)

/-- Claim C9 (amended): for the mean method with a declared approx_interval
matching the median data frequency within 0.1 days and outside the monthly
band [28,32], the bounds pair consecutive points of the sequence extended by
one synthetic point at `last + int(data_freq_days)` whole days — the code
truncates `data_freq_days` through `np.timedelta64(int(...), "D")`, so the
synthetic point is NOT at `last + data_freq_days` when the frequency is
fractional (see the counterexample). -/
theorem claim_C9_interval_consecutive_bounds (ds : Dataset) (rule : Rule) (tl : String)
    (ai : ℚ)
    (hds : ds.isDataset = true) (hlbl : getTimeLabel ds.coords = some tl)
    (hnomem : tl ++ "_bnds" ∉ ds.varNames)
    (hmean : validTimeMethod (resolveTimeMethod rule ds) = "mean")
    (hlen : 2 ≤ ds.timeValues.length)
    (hai : rule.approx_interval = some ai)
    (hclose : |dataFreqDays ds.timeValues - ai| < 1 / 10)
    (hnotm : ¬ (28 ≤ ai ∧ ai ≤ 32)) :
    timeBounds ds rule = .ok (addBounds ds tl (tl ++ "_bnds")
      ((ds.timeValues ++ [ds.timeValues.getLast?.getD 0 +
          86400 * pyInt (dataFreqDays ds.timeValues)]).zip
        (ds.timeValues ++ [ds.timeValues.getLast?.getD 0 +
          86400 * pyInt (dataFreqDays ds.timeValues)]).tail)) :=
  timeBounds_interval_branch ds rule tl ai hds hlbl hnomem hmean hlen hai hclose hnotm

/-- Witness for the amended C9: three points 10 days apart with
approx_interval 10; every timestep, the last included, gets the pair of
consecutive extended points. -/
theorem claim_C9_witness :
    timeBounds ⟨true, [⟨"time", true, true, true⟩], ["time", "temperature"],
      [0, 864000, 1728000], none, none, none⟩ ⟨some 10, none⟩ =
      .ok (addBounds ⟨true, [⟨"time", true, true, true⟩], ["time", "temperature"],
        [0, 864000, 1728000], none, none, none⟩ "time" ("time" ++ "_bnds")
        (([0, 864000, 1728000] ++ [([0, 864000, 1728000] : List ℤ).getLast?.getD 0 +
            86400 * pyInt (dataFreqDays [0, 864000, 1728000])]).zip
          (([0, 864000, 1728000] : List ℤ) ++ [([0, 864000, 1728000] : List ℤ).getLast?.getD 0 +
            86400 * pyInt (dataFreqDays [0, 864000, 1728000])]).tail)) :=
  claim_C9_interval_consecutive_bounds _ ⟨some 10, none⟩ "time" 10 rfl (by decide)
    (by decide) (by decide) (by decide) rfl
    (by norm_num [dataFreqDays, median, diffs, sortQ, insort])
    (by norm_num)

set_option maxHeartbeats 1000000 in
/-- Counterexample to C9: with 1.5-day spacing and approx_interval 1.5 the
code's synthetic point is `last + int(1.5) = last + 1` day (345600 s), not
`last + data_freq_days = last + 1.5` days (388800 s) as the claim states. -/
theorem claim_C9_counterexample :
    boundsOf (timeBounds ⟨true, [⟨"time", true, true, true⟩], ["time", "temperature"],
      [0, 129600, 259200], none, none, none⟩ ⟨some (3/2), none⟩) =
      some [(0, 129600), (129600, 259200), (259200, 345600)] ∧
    (259200 : ℚ) + (3/2) * 86400 = 388800 ∧ ((345600 : ℤ) ≠ 388800) := by
  have hdf : dataFreqDays [0, 129600, 259200] = 3/2 := by
    norm_num [dataFreqDays, median, diffs, sortQ, insort]
  have hb := timeBounds_interval_branch
    ⟨true, [⟨"time", true, true, true⟩], ["time", "temperature"],
      [0, 129600, 259200], none, none, none⟩ ⟨some (3/2), none⟩ "time" (3/2)
    rfl (by decide) (by decide) (by decide) (by decide) rfl
    (by rw [show (Dataset.mk true [⟨"time", true, true, true⟩] ["time", "temperature"]
      [0, 129600, 259200] none none none).timeValues = [0, 129600, 259200] from rfl, hdf]
        norm_num)
    (by norm_num)
  refine ⟨?_, by norm_num, by decide⟩
  rw [hb]
  show (addBounds _ _ _ _).boundsData = _
  rw [show (Dataset.mk true [⟨"time", true, true, true⟩] ["time", "temperature"]
    [0, 129600, 259200] none none none).timeValues = [0, 129600, 259200] from rfl, hdf]
  have hpy : pyInt ((3 : ℚ)/2) = 1 := by
    norm_num [pyInt]
  norm_num [intervalConsecBounds, hpy, addBounds]

end Pymor
